import Mathlib

/-!
Shallow embedding of the resumable page-processing pipeline of
`read_books.py` (PDF book analysis tool), together with theorems settling
the specification claims about it.

Conventions of the embedding:
* External collaborators (PDF text extraction, the LLM completion endpoint)
  are modelled as oracles in an `Env` record; a call that can raise a Python
  exception returns `Except String α`.
* The filesystem footprint relevant to the claims is the `FS` record: the
  pickle progress file, the knowledge-base JSON file, and the numbered
  summary markdown files (represented by the set of numbers present in the
  summaries directory, per kind). `FS.summarize_calls` additionally counts
  how many requests were issued to the external completion service, so that
  "no external call" claims are observable.
* Page indices are 0-based `Nat`, as in the source. The `-1` sentinel that
  `load_progress` returns when no progress file exists is kept as an `Int`,
  exactly as in the source.
-/

namespace ReadBooks

/-- Configuration constant CONTEXT_WINDOW from the source (number of previous
analyses shown to the summarizer). -/
def CONTEXT_WINDOW : Nat := 5

/-- The structured response of the page classifier (`class PageContent`). -/
structure PageContent where
  has_content : Bool
  knowledge : List String
deriving Repr, DecidableEq

/-- The snapshot pickled by `save_progress` (the `timestamp` field carries no
program-visible information and is omitted). -/
structure Progress where
  last_page : Nat
  knowledge_base : List String
  previous_analyses : List String
  last_analysis_count : Nat
deriving Repr, DecidableEq

/-- The filesystem state scoped to one PDF identity, plus a counter of calls
issued to the external completion service for summarization. -/
structure FS where
  progress_file : Option Progress
  knowledge_file : Option (List String)
  final_summaries : List Nat
  interval_summaries : List Nat
  summarize_calls : Nat
deriving Repr, DecidableEq

/-- External collaborators: page count and text extraction from the PDF
library, and the two LLM endpoints (page classification in `process_page`,
summary generation in `analyze_knowledge_base`). An `Except.error` models a
raised exception. -/
structure Env where
  total_pages : Nat
  extract : Nat → Except String String
  classify : String → Nat → Except String PageContent
  summarize : List String → List String → Except String String

/-- The in-memory state threaded through `process_pages` and `main`. -/
structure PState where
  knowledge_base : List String
  previous_analyses : List String
  last_analysis_count : Nat
deriving Repr, DecidableEq

/-- `save_knowledge_base`: rewrite the knowledge JSON file with the current
list. -/
def save_knowledge_base (fs : FS) (knowledge_base : List String) : FS :=
  { fs with knowledge_file := some knowledge_base }

/-- `load_existing_knowledge`: read the knowledge JSON file if it exists,
otherwise start fresh. -/
def load_existing_knowledge (fs : FS) : List String :=
  match fs.knowledge_file with
  | some data => data
  | none => []

/-- `process_page`: classify one page via the LLM; on `has_content` append the
returned knowledge strings, then always rewrite the knowledge file. -/
def process_page (env : Env) (page_text : String) (current_knowledge : List String)
    (page_num : Nat) (fs : FS) : Except String (List String × FS) :=
  match env.classify page_text page_num with
  | .error e => .error e
  | .ok result =>
      let updated_knowledge :=
        current_knowledge ++ (if result.has_content then result.knowledge else [])
      .ok (updated_knowledge, save_knowledge_base fs updated_knowledge)

/-- The `previous_topics` block of the summarization prompt: the last
`CONTEXT_WINDOW` previous analyses, each truncated to its first 100
characters, or a placeholder when there are none. -/
def previous_topics (previous_analyses : List String) : List String :=
  if previous_analyses.isEmpty then ["No previous analyses"]
  else (previous_analyses.drop (previous_analyses.length - CONTEXT_WINDOW)).map
    (fun a => "- " ++ a.take 100 ++ "...")

/-- `analyze_knowledge_base`: short-circuit to an empty result on an empty
batch, otherwise send the batch with the windowed context to the external
completion service. The second component counts external calls issued (the
fixed instruction template text is elided, being invisible to the program).
-/
def analyze_knowledge_base (env : Env) (knowledge_base : List String)
    (previous_analyses : List String) : Except String String × Nat :=
  if knowledge_base.isEmpty then (.ok "", 0)
  else (env.summarize knowledge_base (previous_topics previous_analyses), 1)

/-- Writing a markdown file under a given number: an existing file with the
same number is overwritten in place, otherwise the number is added. -/
def write_summary_file (files : List Nat) (n : Nat) : List Nat :=
  if n ∈ files then files else files ++ [n]

/-- `save_summary`: skip empty summaries; otherwise number the new file as
count-of-existing-files-of-that-kind + 1 and write it. -/
def save_summary (fs : FS) (summary : String) (is_final : Bool) : FS :=
  if summary = "" then fs
  else if is_final then
    { fs with final_summaries :=
        write_summary_file fs.final_summaries (fs.final_summaries.length + 1) }
  else
    { fs with interval_summaries :=
        write_summary_file fs.interval_summaries (fs.interval_summaries.length + 1) }

/-- `save_progress`: pickle the current snapshot to the progress file. -/
def save_progress (fs : FS) (page_num : Nat) (knowledge_base previous_analyses : List String)
    (last_analysis_count : Nat) : FS :=
  let progress : Progress :=
    { last_page := page_num
      knowledge_base := knowledge_base
      previous_analyses := previous_analyses
      last_analysis_count := last_analysis_count }
  { fs with progress_file := some progress }

/-- `load_progress`: read the progress file if present; otherwise the
`(-1, [], [], 0)` sentinel tuple. -/
def load_progress (fs : FS) : Int × List String × List String × Nat :=
  match fs.progress_file with
  | some progress =>
      ((progress.last_page : Int), progress.knowledge_base,
        progress.previous_analyses, progress.last_analysis_count)
  | none => (-1, [], [], 0)

/-- `clear_progress`: unlink the progress file if it exists. -/
def clear_progress (fs : FS) : FS :=
  { fs with progress_file := none }

/-- `setup_directories`: delete the knowledge file and every summary file for
the current PDF stem (the directory-creation and PDF-copy steps have no
bearing on the modelled state). -/
def setup_directories (fs : FS) : FS :=
  { fs with knowledge_file := none, final_summaries := [], interval_summaries := [] }

/-- The interval-analysis block inside the loop of `process_pages` (source
lines 465-476): under a truthy `ANALYSIS_INTERVAL`, when `(page_num+1) % I
== 0` and `page_num+1 != end_page`, summarize the knowledge added since
`last_analysis_count`, append the summary, move the watermark, and save an
interval summary file. The `Bool` is false when the summarizer raised. -/
def interval_step (env : Env) (interval : Option Nat) (end_page page_num : Nat)
    (st : PState) (fs : FS) : PState × FS × Bool :=
  match interval with
  | none => (st, fs, true)
  | some I =>
    if I = 0 then (st, fs, true)
    else if (page_num + 1) % I = 0 ∧ page_num + 1 ≠ end_page then
      match analyze_knowledge_base env
        (st.knowledge_base.drop st.last_analysis_count) st.previous_analyses with
      | (.error _, n) => (st, { fs with summarize_calls := fs.summarize_calls + n }, false)
      | (.ok interval_summary, n) =>
          ({ st with
              previous_analyses := st.previous_analyses ++ [interval_summary]
              last_analysis_count := st.knowledge_base.length },
            save_summary { fs with summarize_calls := fs.summarize_calls + n }
              interval_summary false, true)
    else (st, fs, true)

/-- One iteration of the `for page_num in range(start_page, end_page)` loop
body of `process_pages`, including its `try/except`: the `Bool` is true when
the loop may continue, false when an exception was caught and the function
returns the current state. -/
def process_pages_body (env : Env) (interval : Option Nat) (end_page page_num : Nat)
    (st : PState) (fs : FS) : PState × FS × Bool :=
  match env.extract page_num with
  | .error _ => (st, fs, false)
  | .ok page_text =>
    match process_page env page_text st.knowledge_base page_num fs with
    | .error _ => (st, fs, false)
    | .ok pr =>
      match interval_step env interval end_page page_num
          { st with knowledge_base := pr.1 } pr.2 with
      | (st2, fs2, true) =>
          (st2, save_progress fs2 page_num st2.knowledge_base st2.previous_analyses
              st2.last_analysis_count, true)
      | (st2, fs2, false) => (st2, fs2, false)

/-- The loop of `process_pages` over an explicit list of page indices. -/
def process_pages_go (env : Env) (interval : Option Nat) (end_page : Nat) :
    List Nat → PState → FS → PState × FS
  | [], st, fs => (st, fs)
  | page_num :: rest, st, fs =>
    match process_pages_body env interval end_page page_num st fs with
    | (st1, fs1, true) => process_pages_go env interval end_page rest st1 fs1
    | (st1, fs1, false) => (st1, fs1)

/-- `process_pages`: process the half-open page range `[start_page, end_page)`
with per-page error handling and per-page progress saving, returning the
updated `(knowledge_base, previous_analyses, last_analysis_count)` and the
filesystem. -/
def process_pages (env : Env) (interval : Option Nat) (start_page end_page : Nat)
    (st : PState) (fs : FS) : PState × FS :=
  process_pages_go env interval end_page
    (List.range' start_page (end_page - start_page)) st fs

/-- The outcome of a run of `main`: `ok = false` means the final
summarization raised (the uncaught-exception path). -/
structure RunResult where
  ok : Bool
  st : PState
  fs : FS
deriving Repr, DecidableEq

/-- The tail of `main` (source lines 101-107): always generate the final
analysis over the whole knowledge base, save it as a final summary, then
clear the progress file. An exception from the final analysis propagates
(`ok = false`) before any of the saves. -/
def finish_run (env : Env) (st : PState) (fs : FS) : RunResult :=
  match analyze_knowledge_base env st.knowledge_base st.previous_analyses with
  | (.error _, n) =>
      { ok := false, st := st
        fs := { fs with summarize_calls := fs.summarize_calls + n } }
  | (.ok final_summary, n) =>
      { ok := true, st := st
        fs := clear_progress (save_summary
          { fs with summarize_calls := fs.summarize_calls + n } final_summary true) }

/-- `main`: set up directories (clearing this PDF's artifacts), load saved
progress if any (else start fresh), compute the test/interval settings from
the command-line arguments, process the page range(s), and finish with the
final summary and progress clearing. -/
def main_run (env : Env) (test_pages_arg interval_arg : Nat) (fs0 : FS) : RunResult :=
  let fs := setup_directories fs0
  let loaded := load_progress fs
  let start_page : Nat := if loaded.1 = -1 then 0 else loaded.1.toNat
  let knowledge_base : List String :=
    if loaded.1 = -1 then load_existing_knowledge fs else loaded.2.1
  let previous_analyses : List String := if loaded.1 = -1 then [] else loaded.2.2.1
  let last_analysis_count : Nat := if loaded.1 = -1 then 0 else loaded.2.2.2
  let total_pages := env.total_pages
  let test_pages : Option Nat :=
    if 0 < test_pages_arg then some (min test_pages_arg total_pages) else none
  let analysis_interval : Option Nat :=
    if interval_arg = 0 then none else some interval_arg
  let st0 : PState :=
    { knowledge_base := knowledge_base
      previous_analyses := previous_analyses
      last_analysis_count := last_analysis_count }
  match test_pages with
  | some tp =>
      let end_page := min tp total_pages
      let r1 := process_pages env analysis_interval start_page end_page st0 fs
      if end_page < total_pages then
        let r2 := process_pages env analysis_interval end_page total_pages r1.1 r1.2
        finish_run env r2.1 r2.2
      else
        finish_run env r1.1 r1.2
  | none =>
      let r1 := process_pages env analysis_interval start_page total_pages st0 fs
      finish_run env r1.1 r1.2

/-! ## Concrete environments and states used by witnesses and counterexamples -/

/-- The empty filesystem: no progress file, no knowledge file, no summaries. -/
def fsE : FS :=
  { progress_file := none, knowledge_file := none
    final_summaries := [], interval_summaries := [], summarize_calls := 0 }

/-- A benign 4-page environment: every page classifies to one knowledge point
and the summarizer always answers. -/
def envA : Env :=
  { total_pages := 4
    extract := fun _ => .ok "page text"
    classify := fun _ _ => .ok { has_content := true, knowledge := ["k"] }
    summarize := fun _ _ => .ok "S" }

/-- A small starting state with one knowledge point and no analyses. -/
def stA : PState :=
  { knowledge_base := ["k0"], previous_analyses := [], last_analysis_count := 0 }

/-- An empty starting state. -/
def st0 : PState :=
  { knowledge_base := [], previous_analyses := [], last_analysis_count := 0 }

/-- A 2-page environment whose summarizer always raises. -/
def envB : Env :=
  { total_pages := 2
    extract := fun _ => .ok "page text"
    classify := fun _ _ => .ok { has_content := true, knowledge := ["k0"] }
    summarize := fun _ _ => .error "boom" }

/-- The state returned when page 0 of `envB` fails mid-page (classification
succeeded, interval summarization raised). -/
def stB1 : PState :=
  { knowledge_base := ["k0"], previous_analyses := [], last_analysis_count := 0 }

/-- The filesystem after page 0 of `envB` fails mid-page: knowledge file was
rewritten, one summarizer call was issued, no checkpoint was written. -/
def fsB1 : FS :=
  { progress_file := none, knowledge_file := some ["k0"]
    final_summaries := [], interval_summaries := [], summarize_calls := 1 }

/-- A 2-page environment where page 0 yields knowledge k0 and page 1 yields
k1. -/
def envC1 : Env :=
  { total_pages := 2
    extract := fun _ => .ok "page text"
    classify := fun _ p =>
      .ok (if p = 0 then { has_content := true, knowledge := ["k0"] }
        else { has_content := true, knowledge := ["k1"] })
    summarize := fun _ _ => .ok "S" }

/-- The checkpoint written at the end of page 0 of `envC1`. -/
def progC1 : Progress :=
  { last_page := 0, knowledge_base := ["k0"], previous_analyses := []
    last_analysis_count := 0 }

/-- A filesystem holding the checkpoint written at the end of page 0 of
`envC1`. -/
def fsC1 : FS :=
  { fsE with progress_file := some progC1 }

/-- A 3-page environment where page 0 succeeds and classification of every
later page raises. -/
def envC2 : Env :=
  { total_pages := 3
    extract := fun _ => .ok "page text"
    classify := fun _ p =>
      if p = 0 then .ok { has_content := true, knowledge := ["k0"] }
      else .error "boom"
    summarize := fun _ _ => .ok "S" }

/-- A 2-page environment whose classifier always raises. -/
def envC6 : Env :=
  { total_pages := 2
    extract := fun _ => .ok "page text"
    classify := fun _ _ => .error "boom"
    summarize := fun _ _ => .ok "S" }

/-- A filesystem holding a checkpoint, a knowledge file and an interval
summary file from an interrupted earlier run. -/
def fsC6 : FS :=
  { progress_file := some progC1
    knowledge_file := some ["k0"]
    final_summaries := []
    interval_summaries := [1]
    summarize_calls := 0 }

/-- A 1-page environment whose single page has no learnable content. -/
def envC7 : Env :=
  { total_pages := 1
    extract := fun _ => .ok "page text"
    classify := fun _ _ => .ok { has_content := false, knowledge := [] }
    summarize := fun _ _ => .ok "S" }

/-- A 1-page environment whose single page yields knowledge k0. -/
def envC7w : Env :=
  { total_pages := 1
    extract := fun _ => .ok "page text"
    classify := fun _ _ => .ok { has_content := true, knowledge := ["k0"] }
    summarize := fun _ _ => .ok "S" }

/-- Two final summaries saved in sequence into an empty directory. -/
def fs8a : FS := save_summary fsE "A" true

/-- Second save: the directory now holds final files 001 and 002. -/
def fs8b : FS := save_summary fs8a "B" true

/-- The directory after final file 001 is deleted mid-sequence. -/
def fs8c : FS :=
  { fs8b with final_summaries := fs8b.final_summaries.filter (fun n => n != 1) }

/-! ## Helper lemmas -/

/-- Saving a summary never touches the progress file. -/
theorem save_summary_progress_file (fs : FS) (s : String) (b : Bool) :
    (save_summary fs s b).progress_file = fs.progress_file := by
  unfold save_summary
  split
  · rfl
  · split <;> rfl

/-- Saving an interval summary never touches the final-summary files. -/
theorem save_summary_final_of_interval (fs : FS) (s : String) :
    (save_summary fs s false).final_summaries = fs.final_summaries := by
  unfold save_summary
  split <;> rfl

/-- The interval-analysis block never touches the progress file. -/
theorem interval_step_progress_file (env : Env) (interval : Option Nat) (e p : Nat)
    (st : PState) (fs : FS) :
    ((interval_step env interval e p st fs).2.1).progress_file = fs.progress_file := by
  unfold interval_step
  cases interval with
  | none => rfl
  | some I =>
    dsimp only
    by_cases hI : I = 0
    · rw [if_pos hI]
    · rw [if_neg hI]
      by_cases hc : (p + 1) % I = 0 ∧ p + 1 ≠ e
      · rw [if_pos hc]
        rcases h : analyze_knowledge_base env
            (st.knowledge_base.drop st.last_analysis_count) st.previous_analyses
          with ⟨r, n⟩
        cases r with
        | error e2 => rfl
        | ok s => exact save_summary_progress_file _ s false
      · rw [if_neg hc]

/-- The interval-analysis block never touches the final-summary files. -/
theorem interval_step_final_summaries (env : Env) (interval : Option Nat) (e p : Nat)
    (st : PState) (fs : FS) :
    ((interval_step env interval e p st fs).2.1).final_summaries = fs.final_summaries := by
  unfold interval_step
  cases interval with
  | none => rfl
  | some I =>
    dsimp only
    by_cases hI : I = 0
    · rw [if_pos hI]
    · rw [if_neg hI]
      by_cases hc : (p + 1) % I = 0 ∧ p + 1 ≠ e
      · rw [if_pos hc]
        rcases h : analyze_knowledge_base env
            (st.knowledge_base.drop st.last_analysis_count) st.previous_analyses
          with ⟨r, n⟩
        cases r with
        | error e2 => rfl
        | ok s => exact save_summary_final_of_interval _ s
      · rw [if_neg hc]

/-- The interval-analysis block leaves the knowledge base untouched and either
leaves the watermark alone or moves it to the current knowledge-base length. -/
theorem interval_step_state (env : Env) (interval : Option Nat) (e p : Nat)
    (st : PState) (fs : FS) :
    (interval_step env interval e p st fs).1.knowledge_base = st.knowledge_base ∧
      ((interval_step env interval e p st fs).1.last_analysis_count
          = st.last_analysis_count ∨
        (interval_step env interval e p st fs).1.last_analysis_count
          = st.knowledge_base.length) := by
  unfold interval_step
  cases interval with
  | none => exact ⟨rfl, Or.inl rfl⟩
  | some I =>
    dsimp only
    by_cases hI : I = 0
    · rw [if_pos hI]; exact ⟨rfl, Or.inl rfl⟩
    · rw [if_neg hI]
      by_cases hc : (p + 1) % I = 0 ∧ p + 1 ≠ e
      · rw [if_pos hc]
        rcases h : analyze_knowledge_base env
            (st.knowledge_base.drop st.last_analysis_count) st.previous_analyses
          with ⟨r, n⟩
        cases r with
        | error e2 => exact ⟨rfl, Or.inl rfl⟩
        | ok s => exact ⟨rfl, Or.inr rfl⟩
      · rw [if_neg hc]; exact ⟨rfl, Or.inl rfl⟩

/-- A successful `process_page` extends the knowledge base and touches only
the knowledge file. -/
theorem process_page_ok (env : Env) (t : String) (kb : List String) (p : Nat) (fs : FS)
    (pr : List String × FS) (h : process_page env t kb p fs = Except.ok pr) :
    (∃ d, pr.1 = kb ++ d) ∧ pr.2.progress_file = fs.progress_file ∧
      pr.2.final_summaries = fs.final_summaries := by
  unfold process_page at h
  cases hc : env.classify t p with
  | error e2 => rw [hc] at h; exact absurd h (by simp)
  | ok result =>
      rw [hc] at h
      injection h with h1
      subst h1
      exact ⟨⟨_, rfl⟩, rfl, rfl⟩

/-! ## C9 and C10 -/

/-- C9: invoking the Summarizer with an empty knowledge batch returns an empty
result and issues no call to the external completion service, for every
`previous_analyses` value. -/
theorem c9_empty_batch_short_circuit (env : Env) (previous_analyses : List String) :
    analyze_knowledge_base env [] previous_analyses = (Except.ok "", 0) := rfl

/-- C10: for `start_page ≥ end_page` the Page-Range Processor returns the
state components unchanged and leaves the filesystem untouched: no page
processing, no summarization call, no checkpoint write. -/
theorem c10_empty_range_identity (env : Env) (interval : Option Nat)
    (start_page end_page : Nat) (st : PState) (fs : FS)
    (h : end_page ≤ start_page) :
    process_pages env interval start_page end_page st fs = (st, fs) := by
  unfold process_pages
  rw [Nat.sub_eq_zero_of_le h]
  rfl

/-- Witness for C10 at a concrete empty range. -/
theorem c10_witness : process_pages envA none 5 3 stA fsE = (stA, fsE) :=
  c10_empty_range_identity envA none 5 3 stA fsE (by decide)

/-! ## More helper lemmas -/

/-- When the loop body catches an exception, the progress file is exactly the
one it held on entry to the page (the checkpoint from the previous page). -/
theorem process_pages_body_stop (env : Env) (interval : Option Nat) (e p : Nat)
    (st st1 : PState) (fs fs1 : FS)
    (h : process_pages_body env interval e p st fs = (st1, fs1, false)) :
    fs1.progress_file = fs.progress_file := by
  unfold process_pages_body at h
  split at h
  · simp only [Prod.mk.injEq] at h
    rw [← h.2.1]
  · split at h
    · simp only [Prod.mk.injEq] at h
      rw [← h.2.1]
    · rename_i pr hpr
      split at h
      · simp only [Prod.mk.injEq] at h
        exact absurd h.2.2 (by decide)
      · rename_i st2 fs2 hstep
        simp only [Prod.mk.injEq] at h
        rw [← h.2.1]
        have h1 := interval_step_progress_file env interval e p
          { st with knowledge_base := pr.1 } pr.2
        rw [hstep] at h1
        rw [h1]
        exact (process_page_ok env _ st.knowledge_base p fs pr hpr).2.1

/-- The loop body never touches the final-summary files. -/
theorem process_pages_body_final_summaries (env : Env) (interval : Option Nat)
    (e p : Nat) (st : PState) (fs : FS) :
    ((process_pages_body env interval e p st fs).2.1).final_summaries
      = fs.final_summaries := by
  unfold process_pages_body
  split
  · rfl
  · split
    · rfl
    · rename_i pr hpr
      split
      · rename_i st2 fs2 hstep
        have h1 := interval_step_final_summaries env interval e p
          { st with knowledge_base := pr.1 } pr.2
        rw [hstep] at h1
        dsimp only at h1
        show fs2.final_summaries = fs.final_summaries
        rw [h1]
        exact (process_page_ok env _ st.knowledge_base p fs pr hpr).2.2
      · rename_i st2 fs2 hstep
        have h1 := interval_step_final_summaries env interval e p
          { st with knowledge_base := pr.1 } pr.2
        rw [hstep] at h1
        dsimp only at h1
        show fs2.final_summaries = fs.final_summaries
        rw [h1]
        exact (process_page_ok env _ st.knowledge_base p fs pr hpr).2.2

/-- The loop over any page list never touches the final-summary files. -/
theorem process_pages_go_final_summaries (env : Env) (interval : Option Nat)
    (e : Nat) (l : List Nat) :
    ∀ (st : PState) (fs : FS),
      ((process_pages_go env interval e l st fs).2).final_summaries
        = fs.final_summaries := by
  induction l with
  | nil => intro st fs; rfl
  | cons p rest ih =>
    intro st fs
    unfold process_pages_go
    have hfin := process_pages_body_final_summaries env interval e p st fs
    rcases hb : process_pages_body env interval e p st fs with ⟨st1, fs1, b⟩
    rw [hb] at hfin
    cases b with
    | false => exact hfin
    | true => rw [ih st1 fs1]; exact hfin

/-- `process_pages` never touches the final-summary files. -/
theorem process_pages_final_summaries (env : Env) (interval : Option Nat)
    (s e : Nat) (st : PState) (fs : FS) :
    ((process_pages env interval s e st fs).2).final_summaries
      = fs.final_summaries :=
  process_pages_go_final_summaries env interval e _ st fs

/-- Watermark preservation over one loop-body step. -/
theorem process_pages_body_watermark (env : Env) (interval : Option Nat)
    (e p : Nat) (st : PState) (fs : FS)
    (h : st.last_analysis_count ≤ st.knowledge_base.length) :
    (process_pages_body env interval e p st fs).1.last_analysis_count
        ≤ (process_pages_body env interval e p st fs).1.knowledge_base.length ∧
      st.last_analysis_count
        ≤ (process_pages_body env interval e p st fs).1.last_analysis_count := by
  unfold process_pages_body
  split
  · exact ⟨h, le_refl _⟩
  · split
    · exact ⟨h, le_refl _⟩
    · rename_i pr hpr
      obtain ⟨⟨d, hd⟩, -, -⟩ := process_page_ok env _ st.knowledge_base p fs pr hpr
      have hkb : st.knowledge_base.length ≤ pr.1.length := by
        rw [hd, List.length_append]; exact Nat.le_add_right _ _
      have hstep := interval_step_state env interval e p
        { st with knowledge_base := pr.1 } pr.2
      split
      · rename_i st2 fs2 hs2
        rw [hs2] at hstep
        dsimp only at hstep ⊢
        rcases hstep with ⟨hkb2, hlac | hlac⟩
        · rw [hkb2, hlac]
          exact ⟨le_trans h hkb, le_refl _⟩
        · rw [hkb2, hlac]
          exact ⟨le_refl _, le_trans h hkb⟩
      · rename_i st2 fs2 hs2
        rw [hs2] at hstep
        dsimp only at hstep ⊢
        rcases hstep with ⟨hkb2, hlac | hlac⟩
        · rw [hkb2, hlac]
          exact ⟨le_trans h hkb, le_refl _⟩
        · rw [hkb2, hlac]
          exact ⟨le_refl _, le_trans h hkb⟩

/-- Watermark preservation over the loop. -/
theorem process_pages_go_watermark (env : Env) (interval : Option Nat)
    (e : Nat) (l : List Nat) :
    ∀ (st : PState) (fs : FS), st.last_analysis_count ≤ st.knowledge_base.length →
      (process_pages_go env interval e l st fs).1.last_analysis_count
          ≤ (process_pages_go env interval e l st fs).1.knowledge_base.length ∧
        st.last_analysis_count
          ≤ (process_pages_go env interval e l st fs).1.last_analysis_count := by
  induction l with
  | nil => intro st fs h; exact ⟨h, le_refl _⟩
  | cons p rest ih =>
    intro st fs h
    unfold process_pages_go
    have hw := process_pages_body_watermark env interval e p st fs h
    rcases hb : process_pages_body env interval e p st fs with ⟨st1, fs1, b⟩
    rw [hb] at hw
    cases b with
    | false => exact hw
    | true =>
      have := ih st1 fs1 hw.1
      exact ⟨this.1, le_trans hw.2 this.2⟩

/-! ## C3 -/

/-- C3 counterexample: with interval 1 over range [0, 2) and a summarizer
that raises, page 0 fails mid-page, after its classification already appended
knowledge; the processor returns a knowledge base containing page 0's
knowledge even though no page fully completed (no checkpoint was ever
written), so the returned state is not the state as of the last fully
completed page. -/
theorem c3_counterexample :
    (process_pages envB (some 1) 0 2 st0 fsE).2.progress_file = none ∧
      (process_pages envB (some 1) 0 2 st0 fsE).1.knowledge_base = ["k0"] := by
  decide

/-- C3 (amended): if any step of page p raises, the Page-Range Processor
stops immediately (the remaining pages are not visited) and the persisted
checkpoint is still the one written at the end of page p-1; the returned
state, however, reflects the steps of page p that completed before the
failure, so partial effects of page p may appear in it. -/
theorem c3_amended (env : Env) (interval : Option Nat) (e p : Nat)
    (st st1 : PState) (fs fs1 : FS) (rest : List Nat)
    (h : process_pages_body env interval e p st fs = (st1, fs1, false)) :
    process_pages_go env interval e (p :: rest) st fs = (st1, fs1) ∧
      fs1.progress_file = fs.progress_file := by
  constructor
  · unfold process_pages_go
    rw [h]
  · exact process_pages_body_stop env interval e p st st1 fs fs1 h

/-- Witness for C3 (amended) on the concrete failing page 0 of `envB`. -/
theorem c3_witness :
    process_pages_go envB (some 1) 2 [0, 1] st0 fsE = (stB1, fsB1) ∧
      fsB1.progress_file = fsE.progress_file :=
  c3_amended envB (some 1) 2 0 st0 stB1 fsE fsB1 [1] (by decide)

/-! ## C4 -/

/-- If the external summarizer always answers, the analyzer returns an ok
result on every batch. -/
theorem analyze_ok (env : Env) (s : String)
    (hs : ∀ b t, env.summarize b t = Except.ok s) (b pa : List String) :
    ∃ s2 n, analyze_knowledge_base env b pa = (Except.ok s2, n) := by
  unfold analyze_knowledge_base
  split
  · exact ⟨"", 0, rfl⟩
  · exact ⟨s, 1, by rw [hs]⟩

/-- C4: on a page whose extraction and classification succeed (and whose
summarizer call, if issued, succeeds), with a configured interval I > 0, an
interval summary is appended to previous_analyses exactly when
(page_num + 1) % I = 0 and page_num + 1 is not the end of the sub-range; in
particular none is produced on the final page of a sub-range. -/
theorem c4_interval_boundary (env : Env) (I : Nat) (hI : 0 < I)
    (e p : Nat) (st : PState) (fs : FS)
    (page_text : String) (result : PageContent) (s : String)
    (hx : env.extract p = Except.ok page_text)
    (hc : env.classify page_text p = Except.ok result)
    (hs : ∀ batch topics, env.summarize batch topics = Except.ok s) :
    (process_pages_body env (some I) e p st fs).1.previous_analyses.length
      = st.previous_analyses.length +
        (if (p + 1) % I = 0 ∧ p + 1 ≠ e then 1 else 0) := by
  unfold process_pages_body
  rw [hx]
  dsimp only
  unfold process_page
  rw [hc]
  dsimp only
  unfold interval_step
  dsimp only
  rw [if_neg (Nat.pos_iff_ne_zero.mp hI)]
  by_cases hcond : (p + 1) % I = 0 ∧ p + 1 ≠ e
  · rw [if_pos hcond, if_pos hcond]
    obtain ⟨s2, n, ha⟩ := analyze_ok env s hs
      ((st.knowledge_base ++ (if result.has_content then result.knowledge else [])).drop
        st.last_analysis_count) st.previous_analyses
    rw [ha]
    dsimp only
    rw [List.length_append]
    rfl
  · rw [if_neg hcond, if_neg hcond]
    rfl

/-- Witness for C4 at page 1 of a [0,4) range with interval 2. -/
theorem c4_witness :
    (process_pages_body envA (some 2) 4 1 stA fsE).1.previous_analyses.length
      = stA.previous_analyses.length + (if (1 + 1) % 2 = 0 ∧ 1 + 1 ≠ 4 then 1 else 0) :=
  c4_interval_boundary envA 2 (by decide) 4 1 stA fsE "page text"
    { has_content := true, knowledge := ["k"] } "S" rfl rfl (fun _ _ => rfl)

/-! ## C5 -/

/-- C5: throughout a run of the Page-Range Processor, if the watermark
initially satisfies last_analysis_count ≤ len(knowledge_base) then it still
does at the end, and it never decreases; moreover, immediately after the
interval-summary block generates a summary, the watermark equals the length
of the knowledge base at that moment. -/
theorem c5_watermark_invariant :
    (∀ (env : Env) (interval : Option Nat) (s e : Nat) (st : PState) (fs : FS),
      st.last_analysis_count ≤ st.knowledge_base.length →
        (process_pages env interval s e st fs).1.last_analysis_count
            ≤ (process_pages env interval s e st fs).1.knowledge_base.length ∧
          st.last_analysis_count
            ≤ (process_pages env interval s e st fs).1.last_analysis_count) ∧
    (∀ (env : Env) (I e p : Nat) (st : PState) (fs : FS) (s : String),
      I ≠ 0 → (p + 1) % I = 0 ∧ p + 1 ≠ e →
      (analyze_knowledge_base env (st.knowledge_base.drop st.last_analysis_count)
          st.previous_analyses).1 = Except.ok s →
        (interval_step env (some I) e p st fs).1.last_analysis_count
          = (interval_step env (some I) e p st fs).1.knowledge_base.length) := by
  constructor
  · intro env interval s e st fs h
    exact process_pages_go_watermark env interval e _ st fs h
  · intro env I e p st fs s hI hcond hok
    unfold interval_step
    dsimp only
    rw [if_neg hI, if_pos hcond]
    rcases ha : analyze_knowledge_base env
        (st.knowledge_base.drop st.last_analysis_count) st.previous_analyses with ⟨r, n⟩
    rw [ha] at hok
    dsimp only at hok
    subst hok
    rfl

/-- Witness for C5: both conjuncts applied at concrete inputs. -/
theorem c5_witness :
    ((process_pages envA none 0 2 stA fsE).1.last_analysis_count
        ≤ (process_pages envA none 0 2 stA fsE).1.knowledge_base.length ∧
      stA.last_analysis_count
        ≤ (process_pages envA none 0 2 stA fsE).1.last_analysis_count) ∧
    (interval_step envA (some 2) 4 1 stA fsE).1.last_analysis_count
      = (interval_step envA (some 2) 4 1 stA fsE).1.knowledge_base.length :=
  ⟨c5_watermark_invariant.1 envA none 0 2 stA fsE (by decide),
    c5_watermark_invariant.2 envA 2 4 1 stA fsE "S" (by decide) (by decide) rfl⟩

/-! ## C6 -/

/-- C6 counterexample: a checkpoint exists for the PDF identity, yet the run
still deletes the existing knowledge file and interval summary file at start
(the classifier fails on page 0, so nothing is rewritten afterwards: the
post-run filesystem shows the artifacts gone, not left unchanged). -/
theorem c6_counterexample :
    fsC6.progress_file ≠ none ∧
      (main_run envC6 0 0 fsC6).fs.interval_summaries = [] ∧
      (main_run envC6 0 0 fsC6).fs.knowledge_file = none := by decide

/-- C6 (amended): at run start the knowledge and summary artifacts scoped to
the PDF identity are always deleted, whether or not a checkpoint exists; the
checkpoint itself is preserved by the reset (and the run then resumes from
it), so the whole run is insensitive to any pre-existing knowledge/summary
artifacts. -/
theorem c6_amended (env : Env) (a i : Nat) (fs : FS) :
    (setup_directories fs).knowledge_file = none ∧
      (setup_directories fs).final_summaries = [] ∧
      (setup_directories fs).interval_summaries = [] ∧
      (setup_directories fs).progress_file = fs.progress_file ∧
      main_run env a i fs = main_run env a i
        { fs with
            knowledge_file := none
            final_summaries := []
            interval_summaries := [] } :=
  ⟨rfl, rfl, rfl, rfl, rfl⟩

/-! ## C7 -/

/-- The final step returns the state it was given. -/
theorem finish_run_st (env : Env) (st : PState) (fs : FS) :
    (finish_run env st fs).st = st := by
  unfold finish_run
  rcases h : analyze_knowledge_base env st.knowledge_base st.previous_analyses with ⟨r, n⟩
  cases r with
  | error e => rfl
  | ok s => rfl

/-- Every run ends in `finish_run` applied to a filesystem holding no final
summary files (they were all deleted by `setup_directories` and the page
ranges never write final summaries). -/
theorem main_run_as_finish (env : Env) (a i : Nat) (fs : FS) :
    ∃ st1 fs1, main_run env a i fs = finish_run env st1 fs1 ∧
      fs1.final_summaries = [] := by
  unfold main_run
  dsimp only
  split
  · split
    · refine ⟨_, _, rfl, ?_⟩
      rw [process_pages_final_summaries, process_pages_final_summaries]
      exact rfl
    · refine ⟨_, _, rfl, ?_⟩
      rw [process_pages_final_summaries]
      exact rfl
  · refine ⟨_, _, rfl, ?_⟩
    rw [process_pages_final_summaries]
    exact rfl

/-- Saving a nonempty final summary into a directory with no final summary
files produces exactly final file 001. -/
theorem save_summary_final_nonempty (fs : FS) (s : String) (hs : s ≠ "")
    (hfin : fs.final_summaries = []) :
    (save_summary fs s true).final_summaries = [1] := by
  unfold save_summary write_summary_file
  rw [if_neg hs, if_pos (show (true = true) from rfl)]
  rw [hfin]
  exact rfl

/-- C7 counterexample: a run over a 1-page PDF with no learnable content
completes successfully, the final summarization short-circuits to the empty
string, and `save_summary` skips it — no final SummaryRecord file is
persisted, contradicting the claim that persistence always happens once per
run. -/
theorem c7_counterexample :
    (main_run envC7 0 0 fsE).ok = true ∧
      (main_run envC7 0 0 fsE).fs.final_summaries = [] := by decide

/-- C7 (amended): after all ranges complete the Summarizer is invoked once
over the entire final knowledge base with the previous analyses, and its
result is persisted as exactly one final SummaryRecord file — unless the
result is empty (in particular when the final knowledge base is empty), in
which case no file is written. Stated here for runs that complete with a
nonempty knowledge base and a summarizer that never returns empty text: the
run ends with exactly the single final file 001 on disk. -/
theorem c7_amended (env : Env) (a i : Nat) (fs : FS)
    (hok : (main_run env a i fs).ok = true)
    (hkb : (main_run env a i fs).st.knowledge_base ≠ [])
    (hs : ∀ b t, env.summarize b t ≠ Except.ok "") :
    (main_run env a i fs).fs.final_summaries = [1] := by
  obtain ⟨st1, fs1, heq, hfin⟩ := main_run_as_finish env a i fs
  rw [heq] at hok hkb ⊢
  rw [finish_run_st] at hkb
  unfold finish_run at hok ⊢
  rcases ha : analyze_knowledge_base env st1.knowledge_base st1.previous_analyses with ⟨r, n⟩
  rw [ha] at hok
  cases r with
  | error e =>
    dsimp only at hok
    exact Bool.noConfusion hok
  | ok s2 =>
    have hner : s2 ≠ "" := by
      unfold analyze_knowledge_base at ha
      split at ha
      · rename_i hemp
        exact absurd (List.isEmpty_iff.mp hemp) hkb
      · injection ha with ha1 ha2
        intro hcontra
        subst hcontra
        exact hs _ _ ha1
    dsimp only
    show (save_summary { fs1 with summarize_calls := fs1.summarize_calls + n }
        s2 true).final_summaries = [1]
    exact save_summary_final_nonempty _ s2 hner hfin

/-- Witness for C7 (amended): a 1-page run that extracts one knowledge point
ends with exactly final summary file 001. -/
theorem c7_witness : (main_run envC7w 0 0 fsE).fs.final_summaries = [1] :=
  c7_amended envC7w 0 0 fsE (by decide) (by decide)
    (by intro b t h; injection h with h2; exact absurd h2 (by decide))

/-! ## C8 -/

/-- C8 counterexample: after final summaries 001 and 002 are saved and 001 is
deleted mid-sequence, the next save computes number count+1 = 2, which
collides with (and overwrites) the existing file 002 — number 2 is reused and
no file 003 is ever created. -/
theorem c8_counterexample :
    fs8b.final_summaries = [1, 2] ∧
      (save_summary fs8c "C" true).final_summaries = [2] ∧
      3 ∉ (save_summary fs8c "C" true).final_summaries := by decide

/-- C8 (amended): each save of a nonempty summary writes the file numbered
count-of-existing-files-of-that-kind + 1; as long as no files of that kind
are deleted (the directory holds exactly files 001..NNN), saves in sequence
produce 001, 002, 003, ... with no reuse — but if earlier files are deleted
mid-sequence the count-based number is reused and overwrites an existing
file. -/
theorem c8_amended (fs : FS) (s : String) (n m : Nat)
    (hf : fs.final_summaries = List.range' 1 n)
    (hi : fs.interval_summaries = List.range' 1 m)
    (hs : s ≠ "") :
    (save_summary fs s true).final_summaries = List.range' 1 (n + 1) ∧
      (save_summary fs s false).interval_summaries = List.range' 1 (m + 1) := by
  have hmem : ∀ k : Nat, k + 1 ∉ List.range' 1 k := by
    intro k hk
    rw [List.mem_range'] at hk
    obtain ⟨j, hj, hkj⟩ := hk
    omega
  have harm : ∀ k : Nat, 1 + 1 * k = k + 1 := by intro k; omega
  constructor
  · unfold save_summary write_summary_file
    rw [if_neg hs, if_pos (show (true = true) from rfl)]
    rw [hf, List.length_range', if_neg (hmem n), List.range'_concat, harm]
  · unfold save_summary write_summary_file
    rw [if_neg hs, if_neg (show ¬(false = true) from by decide)]
    rw [hi, List.length_range', if_neg (hmem m), List.range'_concat, harm]

/-- Witness for C8 (amended) on the concrete directory holding final files
001 and 002 and no interval files. -/
theorem c8_witness :
    (save_summary fs8b "C" true).final_summaries = List.range' 1 3 ∧
      (save_summary fs8b "C" false).interval_summaries = List.range' 1 1 :=
  c8_amended fs8b "C" 2 0 (by decide) (by decide) (by decide)

/-! ## C1 -/

/-- C1: evaluation of the code at the failing input. With a checkpoint saved
after page 0 (last_page = 0, knowledge_base = [k0]) of a 2-page PDF, a
restarted run passes start_page = 0 — not 1 — to the Page-Range Processor:
page 0 is reprocessed and its knowledge appended a second time, giving
[k0, k0, k1] instead of [k0, k1]. -/
theorem c1_code_bug_eval :
    (main_run envC1 0 0 fsC1).st.knowledge_base = ["k0", "k0", "k1"] := by decide

/-! ## C2 -/

/-- C2: evaluation of the code at the failing input. On a 3-page PDF where
classification of page 1 raises, the Page-Range Processor returns early with
only page 0 processed, yet the run still saves a final summary and deletes
the checkpoint — the run is treated as completed and no resume point
remains. -/
theorem c2_code_bug_eval :
    (main_run envC2 0 0 fsE).st.knowledge_base = ["k0"] ∧
      (main_run envC2 0 0 fsE).fs.progress_file = none ∧
      (main_run envC2 0 0 fsE).fs.final_summaries = [1] := by decide

end ReadBooks
